import Mathlib

/-
Verification development for the Agent-Assist generation pipeline and its
PHI redaction gate.  The definitions below are a shallow embedding of the
corresponding Python source files:

  src/utils/phi_redaction.py      (PHIRedactor)
  src/agent_assist/service.py     (AgentAssistService, AgentAssistResponse)
  src/llm_services/gemini_service.py  (GeminiService.generate_knowledge_snippet)

Python regular-expression matching (re.findall / re.sub with a backtracking
engine, IGNORECASE) is embedded as an explicit backtracking matcher over
List Char.  Machine floats of the source are modelled as rationals; every
numeric value the claims mention (0, 0.5, 4.0, counts) is exactly
representable in binary floating point, so the claims are decided
identically by the rational model.
-/

/-- ASCII lower-casing of one character, as Python str.lower does on ASCII. -/
def lowerChar (c : Char) : Char :=
  if 'A' ≤ c && c ≤ 'Z' then Char.ofNat (c.toNat + 32) else c

/-- ASCII upper-casing of one character, as Python str.upper does on ASCII. -/
def upperChar (c : Char) : Char :=
  if 'a' ≤ c && c ≤ 'z' then Char.ofNat (c.toNat - 32) else c

/-- Python regex whitespace class backslash-s over ASCII. -/
def isSpacePy (c : Char) : Bool :=
  c == ' ' || c == '\t' || c == '\n' || c == '\r' || c == '\x0b' || c == '\x0c'

/-- Python regex word-character class backslash-w over ASCII. -/
def isWordCharPy (c : Char) : Bool :=
  c.isAlphanum || c == '_'

/-- Regular expression abstract syntax sufficient for the eight patterns of
PHIRedactor.PATTERNS: single-character classes with bounded or unbounded
repetition (greedy or lazy), concatenation, alternation and word boundary. -/
inductive RE where
  | eps : RE
  | wb : RE
  | rep : (Char → Bool) → Nat → Option Nat → Bool → RE
  | cat : RE → RE → RE
  | alt : RE → RE → RE

def RE.size : RE → Nat
  | .eps => 1
  | .wb => 1
  | .rep _ _ _ _ => 1
  | .cat a b => a.size + b.size + 1
  | .alt a b => a.size + b.size + 1

/-- Length of the maximal prefix whose characters satisfy p. -/
def countRun (p : Char → Bool) : List Char → Nat
  | [] => 0
  | c :: cs => if p c then countRun p cs + 1 else 0

/-- The character preceding the current position after consuming n
characters of s (the previous character is needed for word boundaries). -/
def advPrev (prev : Option Char) (s : List Char) (n : Nat) : Option Char :=
  match (s.take n).getLast? with
  | some c => some c
  | none => prev

/-- First successful result of f over a list of candidate repetition counts,
in order: this realises the backtracking preference order of the engine. -/
def firstSome (f : Nat → Option (List Char)) : List Nat → Option (List Char)
  | [] => none
  | n :: ns =>
    match f n with
    | some r => some r
    | none => firstSome f ns

/-- Backtracking matcher in continuation style, mirroring the Python re
engine on the supported constructs: alternation prefers the left branch,
greedy repetition prefers the longest count, lazy repetition the shortest,
and in each case the matcher backtracks into the continuation.  The fuel
argument only bounds the structural depth of the regex (see matchHere). -/
def matchRE : Nat → RE → Option Char → List Char →
    (Option Char → List Char → Option (List Char)) → Option (List Char)
  | 0, _, _, _, _ => none
  | fuel + 1, r, prev, s, k =>
    match r with
    | .eps => k prev s
    | .wb =>
      let left := match prev with
        | some c => isWordCharPy c
        | none => false
      let right := match s with
        | c :: _ => isWordCharPy c
        | [] => false
      if left != right then k prev s else none
    | .rep p lo hi lz =>
      let run := countRun p s
      let cap := match hi with
        | some h => min run h
        | none => run
      if lo ≤ cap then
        let base := (List.range (cap + 1 - lo)).map (fun i => i + lo)
        firstSome (fun n => k (advPrev prev s n) (s.drop n))
          (if lz then base else base.reverse)
      else none
    | .cat a b => matchRE fuel a prev s (fun p2 s2 => matchRE fuel b p2 s2 k)
    | .alt a b =>
      match matchRE fuel a prev s k with
      | some res => some res
      | none => matchRE fuel b prev s k

/-- Attempt a match of r at the head of s (prev is the character just before
s in the full text); returns the length of the preferred match, if any. -/
def matchHere (r : RE) (prev : Option Char) (s : List Char) : Option Nat :=
  match matchRE (r.size + 1) r prev s (fun _ s2 => some s2) with
  | some s2 => some (s.length - s2.length)
  | none => none

/-- Left-to-right non-overlapping scan collecting all matches, as Python
re.findall does for a pattern without capture groups.  Fuel strictly
exceeds the length of s at every call from the wrapper. -/
def findAllAux (r : RE) : Nat → Option Char → List Char → List (List Char)
  | 0, _, _ => []
  | fuel + 1, prev, s =>
    match s with
    | [] =>
      match matchHere r prev [] with
      | some _ => [[]]
      | none => []
    | c :: rest =>
      match matchHere r prev (c :: rest) with
      | some 0 => [] :: findAllAux r fuel (some c) rest
      | some (n + 1) =>
        (c :: rest).take (n + 1) ::
          findAllAux r fuel (advPrev prev (c :: rest) (n + 1)) ((c :: rest).drop (n + 1))
      | none => findAllAux r fuel (some c) rest

/-- Left-to-right non-overlapping scan replacing every match with rep, as
Python re.sub does.  It takes the same branches as findAllAux. -/
def subAux (r : RE) (rep : List Char) : Nat → Option Char → List Char → List Char
  | 0, _, s => s
  | fuel + 1, prev, s =>
    match s with
    | [] =>
      match matchHere r prev [] with
      | some _ => rep
      | none => []
    | c :: rest =>
      match matchHere r prev (c :: rest) with
      | some 0 => rep ++ c :: subAux r rep fuel (some c) rest
      | some (n + 1) =>
        rep ++ subAux r rep fuel (advPrev prev (c :: rest) (n + 1)) ((c :: rest).drop (n + 1))
      | none => c :: subAux r rep fuel (some c) rest

/-- All non-overlapping matches of r in s (re.findall). -/
def findAll (r : RE) (s : List Char) : List (List Char) :=
  findAllAux r (s.length + 1) none s

/-- s with every non-overlapping match of r replaced by rep (re.sub). -/
def subAll (r : RE) (rep : List Char) (s : List Char) : List Char :=
  subAux r rep (s.length + 1) none s

/- Pattern combinators. -/

def clsRE (p : Char → Bool) : RE := .rep p 1 (some 1) false

def chrRE (c : Char) : RE := clsRE (fun x => x == c)

/-- Case-insensitive literal character (the source compiles every pattern
with re.IGNORECASE). -/
def chrCI (c : Char) : RE := clsRE (fun x => lowerChar x == lowerChar c)

def strCI (s : String) : RE :=
  s.data.foldr (fun c acc => .cat (chrCI c) acc) .eps

def catL (rs : List RE) : RE := rs.foldr .cat .eps

def dFix (n : Nat) : RE := .rep Char.isDigit n (some n) false

def dRange (lo hi : Nat) : RE := .rep Char.isDigit lo (some hi) false

/- The eight patterns of PHIRedactor.PATTERNS, in source order. -/

def ssnRE : RE :=
  .alt (catL [.wb, dFix 3, chrRE '-', dFix 2, chrRE '-', dFix 4, .wb])
       (catL [.wb, dFix 9, .wb])

def sepOptLazy : RE :=
  .rep (fun c => c == '-' || c == '.' || isSpacePy c) 0 (some 1) true

def phoneRE : RE :=
  .alt (catL [.wb, dFix 3, sepOptLazy, dFix 3, sepOptLazy, dFix 4, .wb])
       (catL [chrRE '(', dFix 3, chrRE ')', .rep isSpacePy 0 none false,
              dFix 3, sepOptLazy, dFix 4, .wb])

def emailRE : RE :=
  catL [.wb,
        .rep (fun c => c.isAlphanum || c == '.' || c == '_' || c == '%' || c == '+' || c == '-') 1 none false,
        chrRE '@',
        .rep (fun c => c.isAlphanum || c == '.' || c == '-') 1 none false,
        chrRE '.',
        .rep (fun c => c.isAlpha || c == '|') 2 none false,
        .wb]

def sepOpt : RE :=
  .rep (fun c => c == ':' || isSpacePy c || c == '#') 0 (some 1) false

def mrnRE : RE :=
  catL [.wb, strCI "MRN", sepOpt, dRange 6 10, .wb]

def patientIdRE : RE :=
  catL [.wb, strCI "patient", sepOpt, strCI "ID", sepOpt, dRange 6 10, .wb]

def policyRE : RE :=
  catL [.wb, strCI "policy", sepOpt, dRange 8 12, .wb]

def ccSep : RE :=
  .rep (fun c => c == '-' || isSpacePy c) 0 (some 1) false

def creditCardRE : RE :=
  catL [.wb, dFix 4, ccSep, dFix 4, ccSep, dFix 4, ccSep, dFix 4, .wb]

def dateSep : RE := clsRE (fun c => c == '-' || c == '/')

def dateRE : RE :=
  catL [.wb, dRange 1 2, dateSep, dRange 1 2, dateSep, dRange 2 4, .wb]

/-- PHIRedactor.PATTERNS: the named detection categories in source order. -/
def PATTERNS : List (String × RE) :=
  [("ssn", ssnRE), ("phone", phoneRE), ("email", emailRE), ("mrn", mrnRE),
   ("patient_id", patientIdRE), ("policy", policyRE),
   ("credit_card", creditCardRE), ("date", dateRE)]

def lookupRE (nm : String) : Option RE :=
  (PATTERNS.find? (fun p => p.1 == nm)).map Prod.snd

def asciiUpper (s : String) : String := ⟨s.data.map upperChar⟩

/-- The literal category placeholder of the source. -/
def placeholderFor (nm : String) : String :=
  "[REDACTED_" ++ asciiUpper nm ++ "]"

/-- PHIRedactor.redact: one pass per selected category over progressively
redacted text; a category contributes a count entry only when it matched.
The patterns argument mirrors the Python default (None, and an empty list,
select all categories by truthiness of the expression patterns or keys). -/
def redact (text : String) (patterns : Option (List String)) :
    String × List (String × Nat) :=
  if text = "" then (text, [])
  else
    let names := match patterns with
      | none => PATTERNS.map Prod.fst
      | some [] => PATTERNS.map Prod.fst
      | some ps => ps
    let res := names.foldl
      (fun (acc : List Char × List (String × Nat)) nm =>
        match lookupRE nm with
        | none => acc
        | some r =>
          let count := (findAll r acc.1).length
          if count > 0 then
            (subAll r (placeholderFor nm).data acc.1, acc.2 ++ [(nm, count)])
          else acc)
      (text.data, [])
    (⟨res.1⟩, res.2)

/-- PHIRedactor.is_text_safe. -/
def is_text_safe (text : String) : Bool :=
  (redact text none).2.length == 0

/-- Python substring test needle in hay, over character lists. -/
def startsWithL : List Char → List Char → Bool
  | _, [] => true
  | [], _ :: _ => false
  | c :: cs, d :: ds => c == d && startsWithL cs ds

def containsL : List Char → List Char → Bool
  | [], needle => needle.isEmpty
  | c :: rest, needle =>
    startsWithL (c :: rest) needle || containsL rest needle

def containsStr (hay needle : String) : Bool :=
  containsL hay.data needle.data

/-
Structured redaction: PHIRedactor.redact_dict walks a Python dict whose
values are strings, nested dicts, lists or other scalars.  The dynamic
value universe is embedded as a mutual inductive family.
-/

mutual
inductive PyVal where
  | str : String → PyVal
  | intv : Int → PyVal
  | dict : PyDict → PyVal
  | arr : PyList → PyVal
inductive PyDict where
  | nil : PyDict
  | cons : String → PyVal → PyDict → PyDict
inductive PyList where
  | lnil : PyList
  | lcons : PyVal → PyList → PyList
end

/-- The skip condition of redact_dict: the Python test
keys_to_redact and key not in keys_to_redact is truthy exactly when the
key list is present, non-empty, and does not contain the key. -/
def skipKey (keys : Option (List String)) (k : String) : Bool :=
  match keys with
  | none => false
  | some ks => !ks.isEmpty && !ks.contains k

/-- List values: only direct string items are redacted; any other item
(nested dict, nested list, scalar) is kept unchanged, per the source
list comprehension. -/
def redactPyList : PyList → PyList
  | .lnil => .lnil
  | .lcons v rest =>
    match v with
    | .str s => .lcons (.str (redact s none).1) (redactPyList rest)
    | x => .lcons x (redactPyList rest)

mutual
/-- PHIRedactor.redact_dict: iterates the entries; a skipped key keeps its
original value; a string value is redacted; a dict value recurses with the
same keys_to_redact argument; a list value has its string items redacted. -/
def redact_dict (keys : Option (List String)) : PyDict → PyDict
  | .nil => .nil
  | .cons k v rest =>
    if skipKey keys k then .cons k v (redact_dict keys rest)
    else .cons k (redactPyVal keys v) (redact_dict keys rest)

def redactPyVal (keys : Option (List String)) : PyVal → PyVal
  | .str s => .str (redact s none).1
  | .dict d => .dict (redact_dict keys d)
  | .arr l => .arr (redactPyList l)
  | v => v
end

/-
Agent-Assist service embedding (src/agent_assist/service.py).
-/

/-- One conversation message as stored by AgentAssistService.add_message. -/
structure Message where
  role : String
  text : String
  timestamp : String
deriving DecidableEq, Repr

/-- The active_conversations dict: insertion-ordered map from conversation
id to message history. -/
abbrev Store := List (String × List Message)

def lookupConv (store : Store) (cid : String) : Option (List Message) :=
  (store.find? (fun e => e.1 == cid)).map Prod.snd

/-- AgentAssistService.register_conversation. -/
def register_conversation (store : Store) (cid : String) : Store :=
  if (lookupConv store cid).isSome then store else store ++ [(cid, [])]

/-- AgentAssistService.add_message (the timestamp argument models the
caller-supplied or defaulted receipt time). -/
def add_message (store : Store) (cid role text ts : String) : Store :=
  let st := register_conversation store cid
  st.map (fun e => if e.1 == cid then (e.1, e.2 ++ [⟨role, text, ts⟩]) else e)

/-- AgentAssistService.close_conversation. -/
def close_conversation (store : Store) (cid : String) : Store :=
  store.filter (fun e => !(e.1 == cid))

/-- Python slice xs[i:] for a possibly negative integer i. -/
def pySliceFrom (i : Int) (xs : List α) : List α :=
  let n : Int := xs.length
  let start : Int := if i < 0 then max (n + i) 0 else min i n
  xs.drop start.toNat

/-- AgentAssistService.get_conversation_history: the stored sequence for
the id (empty when unknown); when the limit is truthy (non-zero) the
Python slice messages[-limit:] is returned. -/
def get_conversation_history (store : Store) (cid : String)
    (limit : Option Int) : List Message :=
  let messages := (lookupConv store cid).getD []
  match limit with
  | none => messages
  | some l => if l == 0 then messages else pySliceFrom (-l) messages

/-- The metrics dictionary of AgentAssistService.get_metrics. -/
structure Metrics where
  active_conversations : Nat
  total_messages : Nat
  avg_messages_per_conversation : ℚ
deriving DecidableEq, Repr

def totalMessages (store : Store) : Nat :=
  (store.map (fun e => e.2.length)).sum

/-- AgentAssistService.get_metrics. -/
def get_metrics (store : Store) : Metrics :=
  ⟨store.length, totalMessages store,
   if store.isEmpty then 0
   else (totalMessages store : ℚ) / (store.length : ℚ)⟩

/-- AgentAssistService._get_last_patient_message: scan from newest to
oldest for a message whose role is exactly patient. -/
def get_last_patient_message (messages : List Message) : Option String :=
  match messages.reverse.find? (fun m => m.role == "patient") with
  | some m => some m.text
  | none => none

/-- AgentAssistService._determine_next_best_action: the keyword rule chain
over the lower-cased text of the single most recent message. -/
def determine_next_best_action (messages : List Message) : String :=
  match messages.getLast? with
  | none => "Greet patient and ask how you can help"
  | some m =>
    let last := ⟨m.text.data.map lowerChar⟩
    if (["appointment", "schedule", "book"] : List String).any (fun w => containsStr last w) then
      "Offer available appointment slots"
    else if (["bill", "charge", "cost", "insurance"] : List String).any (fun w => containsStr last w) then
      "Look up patient billing information"
    else if (["prescription", "medication", "refill"] : List String).any (fun w => containsStr last w) then
      "Check prescription status and process refill"
    else if (["results", "test", "lab"] : List String).any (fun w => containsStr last w) then
      "Verify results are available and offer to send securely"
    else if (["speak", "talk", "representative", "person"] : List String).any (fun w => containsStr last w) then
      "Prepare for escalation to specialized team"
    else
      "Clarify patient" ++ ⟨['\x27']⟩ ++ "s primary concern"

/-- One smart-reply suggestion: text plus confidence. -/
structure Reply where
  text : String
  confidence : ℚ
deriving DecidableEq, Repr

/-- One knowledge snippet as returned by generate_knowledge_snippet. -/
structure Snippet where
  snippet : String
  relevance_score : ℚ
  model : String
deriving DecidableEq, Repr

/-- The Generation Capability as the orchestrator consumes it: the three
llm_service operations, each of which may fail (modelled with Except). -/
structure LLMService where
  summarize_conversation : List Message → Except String String
  generate_smart_replies : List Message → String → Except String (List Reply)
  generate_knowledge_snippet : String → Except String Snippet

/-- AgentAssistResponse (dataclass): optional fields default to None and
confidence_score defaults to 0.0. -/
structure AgentAssistResponse where
  conversation_id : String
  timestamp : String
  summary : Option String
  smart_replies : Option (List Reply)
  knowledge_snippets : Option (List Snippet)
  next_best_action : Option String
  confidence_score : ℚ
deriving DecidableEq, Repr

def sumConfidence (rs : List Reply) : ℚ :=
  (rs.map Reply.confidence).sum

/-- AgentAssistService._calculate_overall_confidence: one representative
score per truthy result (a non-empty reply list, a non-empty snippet list,
a non-empty summary string), averaged; 0.5 when no score was collected. -/
def calculate_overall_confidence (summary : Option String)
    (replies : Option (List Reply)) (knowledge : Option (List Snippet)) : ℚ :=
  let scores : List ℚ :=
    (match replies with
     | some (r :: rs) => [sumConfidence (r :: rs) / ((r :: rs).length : ℚ)]
     | _ => []) ++
    (match knowledge with
     | some (_ :: _) => [(85 : ℚ) / 100]
     | _ => []) ++
    (match summary with
     | some s => if s == "" then [] else [(90 : ℚ) / 100]
     | none => [])
  if scores.isEmpty then 1 / 2
  else scores.sum / (scores.length : ℚ)

/-- AgentAssistService.generate_real_time_assist.  The asyncio task fan-out
is embedded denotationally: each eligible operation is the corresponding
capability call, a raised exception becoming None for that field only (the
per-task try/except of the await loop).  The now argument models the
response timestamp. -/
def generate_real_time_assist (llm : LLMService) (store : Store)
    (cid now : String)
    (include_summary include_smart_replies include_knowledge : Bool) :
    AgentAssistResponse :=
  let messages := get_conversation_history store cid none
  if messages.isEmpty then
    ⟨cid, now, none, none, none, none, 0⟩
  else
    let summaryResult : Option String :=
      if include_summary && messages.length ≥ 3 then
        (llm.summarize_conversation messages).toOption
      else none
    let lastPatient := get_last_patient_message messages
    let repliesResult : Option (List Reply) :=
      if include_smart_replies && messages.length ≥ 2 then
        match lastPatient with
        | some lp => (llm.generate_smart_replies messages.dropLast lp).toOption
        | none => none
      else none
    let knowledgeResult : Option (List Snippet) :=
      if include_knowledge then
        match lastPatient with
        | some lp => ((llm.generate_knowledge_snippet lp).map (fun sn => [sn])).toOption
        | none => none
      else none
    ⟨cid, now, summaryResult, repliesResult, knowledgeResult,
     some (determine_next_best_action messages),
     calculate_overall_confidence summaryResult repliesResult knowledgeResult⟩

/-
GeminiService.generate_knowledge_snippet (src/llm_services/gemini_service.py):
the query is interpolated verbatim into the prompt; no redaction is applied
anywhere on this path (unlike summarize_conversation and
generate_smart_replies, which redact when redact_phi is true).
-/

/-- The f-string prompt of generate_knowledge_snippet. -/
def knowledge_prompt (query : String) : String :=
  "\nBased on the following query from a healthcare contact center agent,\nprovide a brief, actionable knowledge snippet (2-3 sentences) that would help them respond.\n\nQuery: " ++ query ++ "\n\nProvide practical, compliant information.\n"

/-- Python str.strip over ASCII whitespace. -/
def stripStr (s : String) : String :=
  ⟨((s.data.dropWhile isSpacePy).reverse.dropWhile isSpacePy).reverse⟩

/-- GeminiService.generate_knowledge_snippet, parameterised over the remote
model call gen; the relevance score is the source placeholder 0.85. -/
def generate_knowledge_snippet (gen : String → Except String String)
    (modelName query : String) : Except String Snippet :=
  match gen (knowledge_prompt query) with
  | .ok t => .ok ⟨stripStr t, (85 : ℚ) / 100, modelName⟩
  | .error e => .error e

/-
Heuristic Action Selector: the fixed ordered rule list, stated the way the
specification words it (first matching category wins), to be compared with
the if/elif chain of the source.
-/

def actionRules : List (List String × String) :=
  [(["appointment", "schedule", "book"], "Offer available appointment slots"),
   (["bill", "charge", "cost", "insurance"], "Look up patient billing information"),
   (["prescription", "medication", "refill"], "Check prescription status and process refill"),
   (["results", "test", "lab"], "Verify results are available and offer to send securely"),
   (["speak", "talk", "representative", "person"], "Prepare for escalation to specialized team")]

/-- Modelled from the spec wording: return the recommendation of the first
rule whose keyword list has a member contained in the text, else the
clarify recommendation. -/
def firstMatchingAction (t : String) : String :=
  match actionRules.find? (fun rule => rule.1.any (fun w => containsStr t w)) with
  | some rule => rule.2
  | none => "Clarify patient" ++ ⟨['\x27']⟩ ++ "s primary concern"


/- Concrete capability instances used by closed theorems and witnesses. -/

def sampleLLM : LLMService :=
  ⟨fun _ => .ok "summary text",
   fun _ _ => .ok [⟨"reply", (85 : ℚ) / 100⟩],
   fun q => .ok ⟨q, (85 : ℚ) / 100, "gemini"⟩⟩

def failingRepliesLLM : LLMService :=
  ⟨sampleLLM.summarize_conversation,
   fun _ _ => .error "upstream error",
   sampleLLM.generate_knowledge_snippet⟩

def failingSummaryLLM : LLMService :=
  ⟨fun _ => .error "upstream error",
   sampleLLM.generate_smart_replies,
   sampleLLM.generate_knowledge_snippet⟩

def failingKnowledgeLLM : LLMService :=
  ⟨sampleLLM.summarize_conversation,
   sampleLLM.generate_smart_replies,
   fun _ => .error "upstream error"⟩

def c5store : Store :=
  [("c5", [⟨"patient", "hello", "t1"⟩, ⟨"agent", "hi", "t2"⟩,
           ⟨"patient", "a question about my bill", "t3"⟩])]

def rawSSN : String := "My SSN is 123-45-6789"

def ssnStore : Store := [("conv-1", [⟨"patient", rawSSN, "t0"⟩])]

def c4input : PyDict :=
  .cons "a" (.arr (.lcons (.arr (.lcons (.str "123-45-6789") .lnil)) .lnil)) .nil


/-
Theorems.  First the generic decomposition connecting the findall scan and
the sub scan: the input splits into gap segments and matched spans, and the
substitution output is the same gap segments with each matched span
replaced by the placeholder.
-/

/-- Interleaving of gap segments and match segments: with n matches there
are n + 1 gaps. -/
def interleave : List (List Char) → List (List Char) → List Char
  | [], _ => []
  | g :: _, [] => g
  | g :: gaps, m :: ms => g ++ m ++ interleave gaps ms

theorem interleave_cons_gap (c : Char) (g : List Char)
    (gaps ms : List (List Char)) :
    interleave ((c :: g) :: gaps) ms = c :: interleave (g :: gaps) ms := by
  cases ms <;> simp [interleave]

theorem findSub_decomp (r : RE) (rep : List Char) :
    ∀ fuel (prev : Option Char) (s : List Char), s.length < fuel →
    ∃ gaps : List (List Char),
      gaps.length = (findAllAux r fuel prev s).length + 1 ∧
      s = interleave gaps (findAllAux r fuel prev s) ∧
      subAux r rep fuel prev s =
        interleave gaps ((findAllAux r fuel prev s).map (fun _ => rep)) := by
  intro fuel
  induction fuel with
  | zero =>
    intro prev s h
    exact absurd h (Nat.not_lt_zero _)
  | succ fuel ih =>
    intro prev s h
    cases s with
    | nil =>
      cases hm : matchHere r prev [] with
      | some n =>
        refine ⟨[[], []], ?_, ?_, ?_⟩ <;> simp [findAllAux, subAux, hm, interleave]
      | none =>
        refine ⟨[[]], ?_, ?_, ?_⟩ <;> simp [findAllAux, subAux, hm, interleave]
    | cons c rest =>
      have hr : rest.length < fuel := Nat.lt_of_succ_lt_succ (by simpa using h)
      cases hm : matchHere r prev (c :: rest) with
      | none =>
        obtain ⟨gaps, hlen, hs, hsub⟩ := ih (some c) rest hr
        cases gaps with
        | nil => simp at hlen
        | cons g gaps2 =>
          refine ⟨(c :: g) :: gaps2, ?_, ?_, ?_⟩
          · simp only [findAllAux, hm]
            simpa using hlen
          · simp only [findAllAux, hm]
            rw [interleave_cons_gap, ← hs]
          · simp only [findAllAux, subAux, hm]
            rw [interleave_cons_gap, ← hsub]
      | some n =>
        cases n with
        | zero =>
          obtain ⟨gaps, hlen, hs, hsub⟩ := ih (some c) rest hr
          cases gaps with
          | nil => simp at hlen
          | cons g gaps2 =>
            refine ⟨[] :: (c :: g) :: gaps2, ?_, ?_, ?_⟩
            · simp only [findAllAux, hm]
              simpa using hlen
            · simp only [findAllAux, hm]
              show c :: rest = [] ++ [] ++ interleave ((c :: g) :: gaps2) (findAllAux r fuel (some c) rest)
              rw [interleave_cons_gap, ← hs]
              rfl
            · simp only [findAllAux, subAux, hm]
              show rep ++ c :: subAux r rep fuel (some c) rest =
                [] ++ rep ++ interleave ((c :: g) :: gaps2)
                  ((findAllAux r fuel (some c) rest).map (fun _ => rep))
              rw [interleave_cons_gap, ← hsub]
              rfl
        | succ m =>
          have hlen2 : ((c :: rest).drop (m + 1)).length < fuel := by
            simp only [List.length_drop]
            simp only [List.length_cons]
            omega
          obtain ⟨gaps, hlen, hs, hsub⟩ :=
            ih (advPrev prev (c :: rest) (m + 1)) ((c :: rest).drop (m + 1)) hlen2
          refine ⟨[] :: gaps, ?_, ?_, ?_⟩
          · simp only [findAllAux, hm]
            simpa using hlen
          · simp only [findAllAux, hm]
            show c :: rest = [] ++ (c :: rest).take (m + 1) ++
              interleave gaps (findAllAux r fuel (advPrev prev (c :: rest) (m + 1))
                ((c :: rest).drop (m + 1)))
            rw [← hs]
            simp [List.take_append_drop]
          · simp only [findAllAux, subAux, hm]
            show rep ++ subAux r rep fuel (advPrev prev (c :: rest) (m + 1))
                ((c :: rest).drop (m + 1)) =
              [] ++ rep ++ interleave gaps ((findAllAux r fuel
                (advPrev prev (c :: rest) (m + 1)) ((c :: rest).drop (m + 1))).map
                  (fun _ => rep))
            rw [← hsub]
            rfl

/-- Claim C3: for every text and pattern, redaction replaces each matched
span with the category placeholder (the input splits into gaps and matched
spans, the output is the same gaps with each span replaced) and the count
for a category equals the number of non-overlapping matches; redacting
"My SSN is 123-45-6789" yields the national-ID placeholder, no digit of
the SSN survives, and the ssn count is 1. -/
theorem redact_replaces_matches_and_counts :
    (∀ (r : RE) (rep : List Char) (s : List Char),
      ∃ gaps : List (List Char),
        s = interleave gaps (findAll r s) ∧
        subAll r rep s = interleave gaps ((findAll r s).map (fun _ => rep)) ∧
        gaps.length = (findAll r s).length + 1) ∧
    (findAll ssnRE ("My SSN is 123-45-6789".data)).length = 1 ∧
    redact "My SSN is 123-45-6789" none =
      ("My SSN is [REDACTED_SSN]", [("ssn", 1)]) ∧
    containsStr "My SSN is [REDACTED_SSN]" "123-45-6789" = false ∧
    ("My SSN is [REDACTED_SSN]".data.any Char.isDigit) = false := by
  refine ⟨?_, by decide, by decide, by decide, by decide⟩
  intro r rep s
  obtain ⟨gaps, hlen, hs, hsub⟩ :=
    findSub_decomp r rep (s.length + 1) none s (Nat.lt_succ_self _)
  exact ⟨gaps, hs, hsub, hlen⟩

/-- Claim C6: is_text_safe returns true exactly when redact produces an
empty count map. -/
theorem is_text_safe_iff_no_counts :
    ∀ text : String, is_text_safe text = true ↔ (redact text none).2 = [] := by
  intro text
  simp [is_text_safe, List.length_eq_zero]

/-- Claim C7: the action selector returns the greeting on an empty history,
otherwise depends only on the lower-cased text of the most recent message
and agrees with the ordered first-match rule list; the single patient
message about scheduling an appointment yields the appointment-slots
recommendation. -/
theorem next_best_action_rules :
    determine_next_best_action [] = "Greet patient and ask how you can help" ∧
    (∀ (ms : List Message) (m : Message),
      determine_next_best_action (ms ++ [m]) =
        firstMatchingAction ⟨m.text.data.map lowerChar⟩) ∧
    determine_next_best_action
      [⟨"patient", "I need to schedule an appointment", "t0"⟩] =
      "Offer available appointment slots" := by
  refine ⟨by rfl, ?_, by decide⟩
  intro ms m
  simp only [determine_next_best_action, List.getLast?_concat,
    firstMatchingAction, actionRules, List.find?]
  by_cases h1 : (["appointment", "schedule", "book"] : List String).any
      (fun w => containsStr ⟨m.text.data.map lowerChar⟩ w) = true
  · simp [h1]
  · simp only [Bool.not_eq_true] at h1
    by_cases h2 : (["bill", "charge", "cost", "insurance"] : List String).any
        (fun w => containsStr ⟨m.text.data.map lowerChar⟩ w) = true
    · simp [h1, h2]
    · simp only [Bool.not_eq_true] at h2
      by_cases h3 : (["prescription", "medication", "refill"] : List String).any
          (fun w => containsStr ⟨m.text.data.map lowerChar⟩ w) = true
      · simp [h1, h2, h3]
      · simp only [Bool.not_eq_true] at h3
        by_cases h4 : (["results", "test", "lab"] : List String).any
            (fun w => containsStr ⟨m.text.data.map lowerChar⟩ w) = true
        · simp [h1, h2, h3, h4]
        · simp only [Bool.not_eq_true] at h4
          by_cases h5 : (["speak", "talk", "representative", "person"] : List String).any
              (fun w => containsStr ⟨m.text.data.map lowerChar⟩ w) = true
          · simp [h1, h2, h3, h4, h5]
          · simp only [Bool.not_eq_true] at h5
            simp [h1, h2, h3, h4, h5]

/-- Claim C8: metrics report the tracked-conversation count, the summed
message total, and an average that is 0 with no conversations and
otherwise satisfies average times count = total; two conversations with 3
and 5 messages give 2 active, 8 total, average 4. -/
theorem metrics_spec :
    (get_metrics []).avg_messages_per_conversation = 0 ∧
    (∀ store : Store,
      (get_metrics store).active_conversations = store.length ∧
      (get_metrics store).total_messages = totalMessages store) ∧
    (∀ store : Store, store ≠ [] →
      (get_metrics store).avg_messages_per_conversation * (store.length : ℚ) =
        (totalMessages store : ℚ)) ∧
    get_metrics
      [("conv-a", List.replicate 3 ⟨"patient", "m", "t"⟩),
       ("conv-b", List.replicate 5 ⟨"patient", "m", "t"⟩)] = ⟨2, 8, 4⟩ := by
  refine ⟨by rfl, fun store => ⟨rfl, rfl⟩, ?_, by
    simp only [get_metrics, totalMessages]
    norm_num⟩
  intro store h
  have hne : store.isEmpty = false := by
    cases store with
    | nil => exact absurd rfl h
    | cons a l => rfl
  have hlen : ((store.length : ℚ)) ≠ 0 := by
    have : store.length ≠ 0 := by
      cases store with
      | nil => exact absurd rfl h
      | cons a l => simp
    exact_mod_cast this
  simp only [get_metrics, hne, Bool.false_eq_true, if_false]
  exact div_mul_cancel₀ _ hlen

/-- Claim C8 witness: the average-times-count identity at a concrete store. -/
theorem metrics_spec_witness :
    (get_metrics [("w", [⟨"patient", "hello", "t"⟩])]).avg_messages_per_conversation *
      ((([("w", [(⟨"patient", "hello", "t"⟩ : Message)])] : Store).length : ℚ)) =
      ((totalMessages [("w", [⟨"patient", "hello", "t"⟩])] : Nat) : ℚ) :=
  metrics_spec.2.2.1 [("w", [⟨"patient", "hello", "t"⟩])] (by decide)

/-- Claim C10: a limit of 0 is falsy and returns the entire stored
sequence, and a limit of -1 is passed to Python slicing and returns all
messages except the first. -/
theorem history_limit_zero_and_negative :
    (∀ (store : Store) (cid : String),
      get_conversation_history store cid (some 0) =
        get_conversation_history store cid none) ∧
    (∀ (store : Store) (cid : String),
      get_conversation_history store cid (some (-1)) =
        (get_conversation_history store cid none).drop 1) := by
  constructor
  · intro store cid
    rfl
  · intro store cid
    simp only [get_conversation_history, pySliceFrom]
    cases hm : (lookupConv store cid).getD [] with
    | nil => rfl
    | cons a l =>
      norm_num

/-- Claim C2 counterexample: on an empty (never-registered) conversation the
response confidence is the dataclass default 0.0, not 0.5. -/
theorem empty_history_confidence_not_half :
    (generate_real_time_assist sampleLLM [] "conv-x" "t0" true true true).confidence_score ≠ 1 / 2 ∧
    (generate_real_time_assist sampleLLM [] "conv-x" "t0" true true true).confidence_score = 0 := by
  constructor
  · intro h
    have h0 : (generate_real_time_assist sampleLLM [] "conv-x" "t0" true true true).confidence_score = 0 := rfl
    rw [h0] at h
    norm_num at h
  · rfl

/-- Claim C2 (amended): on a conversation whose stored history is empty,
generate_real_time_assist returns the response with only identifier and
timestamp populated, all optional fields absent, and confidence score 0.0
(the dataclass default), not 0.5. -/
theorem empty_history_response (llm : LLMService) (store : Store)
    (cid now : String) (iS iR iK : Bool)
    (h : get_conversation_history store cid none = []) :
    generate_real_time_assist llm store cid now iS iR iK =
      ⟨cid, now, none, none, none, none, 0⟩ := by
  simp [generate_real_time_assist, h]

/-- Claim C2 witness: the amended statement at a concrete empty store. -/
theorem empty_history_response_witness :
    generate_real_time_assist sampleLLM [] "conv-x" "t0" true true true =
      ⟨"conv-x", "t0", none, none, none, none, 0⟩ :=
  empty_history_response sampleLLM [] "conv-x" "t0" true true true rfl

/-- Claim C4 counterexample: a string leaf inside a nested sequence is left
untouched by redact_dict even though redact would change it, refuting the
claim that redact is applied to every string leaf with recursion into
nested sequences. -/
theorem redact_dict_misses_nested_sequence :
    redact_dict none c4input = c4input ∧
    (redact "123-45-6789" none).1 ≠ "123-45-6789" := by
  constructor
  · rfl
  · decide

/-- Claim C4 (amended): redact_dict redacts string values of processed
mapping entries and recurses into nested mappings carrying the same key
restriction at every mapping level; inside sequences only direct string
items are redacted and every non-string item (nested mapping, nested
sequence, scalar) is kept unchanged. -/
theorem redact_dict_behaviour :
    (∀ (ks : List String) (k k2 : String) (s : String) (rest : PyDict),
      k ∈ ks → k2 ∉ ks →
      redact_dict (some ks) (.cons k (.dict (.cons k2 (.str s) .nil)) rest) =
        .cons k (.dict (.cons k2 (.str s) .nil)) (redact_dict (some ks) rest)) ∧
    (∀ (s : String) (rest : PyList),
      redactPyList (.lcons (.str s) rest) =
        .lcons (.str (redact s none).1) (redactPyList rest)) ∧
    (∀ (v : PyVal) (rest : PyList), (∀ s, v ≠ .str s) →
      redactPyList (.lcons v rest) = .lcons v (redactPyList rest)) ∧
    (∀ (ks : Option (List String)) (k : String) (d rest : PyDict),
      skipKey ks k = false →
      redact_dict ks (.cons k (.dict d) rest) =
        .cons k (.dict (redact_dict ks d)) (redact_dict ks rest)) ∧
    (∀ (ks : Option (List String)) (k s : String) (rest : PyDict),
      skipKey ks k = false →
      redact_dict ks (.cons k (.str s) rest) =
        .cons k (.str (redact s none).1) (redact_dict ks rest)) := by
  refine ⟨?_, ?_, ?_, ?_, ?_⟩
  · intro ks k k2 s rest hk hk2
    have hne : ks.isEmpty = false := by
      cases ks with
      | nil => exact absurd hk (List.not_mem_nil k)
      | cons a l => rfl
    have hc : ks.contains k = true := by
      simp [List.contains, List.elem_eq_mem, hk]
    have hc2 : ks.contains k2 = false := by
      simp [List.contains, List.elem_eq_mem, hk2]
    have hskip : skipKey (some ks) k = false := by
      simp [skipKey, hne, hc, hk]
    have hskip2 : skipKey (some ks) k2 = true := by
      simp [skipKey, hne, hc2, hk2]
    simp [redact_dict, redactPyVal, hskip, hskip2]
  · intro s rest
    rfl
  · intro v rest h
    cases v with
    | str s => exact absurd rfl (h s)
    | intv n => rfl
    | dict d => rfl
    | arr l => rfl
  · intro ks k d rest h
    simp [redact_dict, redactPyVal, h]
  · intro ks k s rest h
    simp [redact_dict, redactPyVal, h]

/-- Claim C4 witness: the nested key restriction and the redaction of a
processed string-valued entry at concrete inputs. -/
theorem redact_dict_behaviour_witness :
    (redact_dict (some ["a"])
      (.cons "a" (.dict (.cons "b" (.str "x 123-45-6789") .nil)) .nil) =
      .cons "a" (.dict (.cons "b" (.str "x 123-45-6789") .nil))
        (redact_dict (some ["a"]) .nil)) ∧
    redact_dict none (.cons "m" (.str "My SSN is 123-45-6789") .nil) =
      .cons "m" (.str (redact "My SSN is 123-45-6789" none).1)
        (redact_dict none .nil) :=
  ⟨redact_dict_behaviour.1 ["a"] "a" "b" "x 123-45-6789" .nil
    (by decide) (by decide),
   redact_dict_behaviour.2.2.2.2 none "m" "My SSN is 123-45-6789" .nil rfl⟩

/-- Claim C5: whichever launched generation operation fails, only its own
field is absent: the other two fields agree with an otherwise identical
capability whose operation succeeds, the next-best-action is populated
from the full history, and the call still returns a response.  One part
per failing operation: smart replies, then summary, then knowledge. -/
theorem assist_failure_isolation :
    (∀ (llm llmF : LLMService) (store : Store) (cid now : String) (iS iR iK : Bool),
      llmF.summarize_conversation = llm.summarize_conversation →
      llmF.generate_knowledge_snippet = llm.generate_knowledge_snippet →
      (∀ ctx last, ∃ e, llmF.generate_smart_replies ctx last = .error e) →
      get_conversation_history store cid none ≠ [] →
      (generate_real_time_assist llmF store cid now iS iR iK).smart_replies = none ∧
      (generate_real_time_assist llmF store cid now iS iR iK).summary =
        (generate_real_time_assist llm store cid now iS iR iK).summary ∧
      (generate_real_time_assist llmF store cid now iS iR iK).knowledge_snippets =
        (generate_real_time_assist llm store cid now iS iR iK).knowledge_snippets ∧
      (generate_real_time_assist llmF store cid now iS iR iK).next_best_action =
        some (determine_next_best_action (get_conversation_history store cid none))) ∧
    (∀ (llm llmF : LLMService) (store : Store) (cid now : String) (iS iR iK : Bool),
      llmF.generate_smart_replies = llm.generate_smart_replies →
      llmF.generate_knowledge_snippet = llm.generate_knowledge_snippet →
      (∀ msgs, ∃ e, llmF.summarize_conversation msgs = .error e) →
      get_conversation_history store cid none ≠ [] →
      (generate_real_time_assist llmF store cid now iS iR iK).summary = none ∧
      (generate_real_time_assist llmF store cid now iS iR iK).smart_replies =
        (generate_real_time_assist llm store cid now iS iR iK).smart_replies ∧
      (generate_real_time_assist llmF store cid now iS iR iK).knowledge_snippets =
        (generate_real_time_assist llm store cid now iS iR iK).knowledge_snippets ∧
      (generate_real_time_assist llmF store cid now iS iR iK).next_best_action =
        some (determine_next_best_action (get_conversation_history store cid none))) ∧
    (∀ (llm llmF : LLMService) (store : Store) (cid now : String) (iS iR iK : Bool),
      llmF.summarize_conversation = llm.summarize_conversation →
      llmF.generate_smart_replies = llm.generate_smart_replies →
      (∀ q, ∃ e, llmF.generate_knowledge_snippet q = .error e) →
      get_conversation_history store cid none ≠ [] →
      (generate_real_time_assist llmF store cid now iS iR iK).knowledge_snippets = none ∧
      (generate_real_time_assist llmF store cid now iS iR iK).summary =
        (generate_real_time_assist llm store cid now iS iR iK).summary ∧
      (generate_real_time_assist llmF store cid now iS iR iK).smart_replies =
        (generate_real_time_assist llm store cid now iS iR iK).smart_replies ∧
      (generate_real_time_assist llmF store cid now iS iR iK).next_best_action =
        some (determine_next_best_action (get_conversation_history store cid none))) := by
  refine ⟨?_, ?_, ?_⟩
  · intro llm llmF store cid now iS iR iK hs hk hr hne
    have hemp : (get_conversation_history store cid none).isEmpty = false := by
      cases hcase : get_conversation_history store cid none with
      | nil => exact absurd hcase hne
      | cons a l => rfl
    refine ⟨?_, ?_, ?_, ?_⟩
    · simp only [generate_real_time_assist, hemp, Bool.false_eq_true, if_false]
      split
      · cases hl : get_last_patient_message (get_conversation_history store cid none) with
        | none => rfl
        | some lp =>
          obtain ⟨e, he⟩ := hr (get_conversation_history store cid none).dropLast lp
          simp [he, Except.toOption]
      · rfl
    · simp only [generate_real_time_assist, hemp, Bool.false_eq_true, if_false, hs]
    · simp only [generate_real_time_assist, hemp, Bool.false_eq_true, if_false, hk]
    · simp only [generate_real_time_assist, hemp, Bool.false_eq_true, if_false]
  · intro llm llmF store cid now iS iR iK hr hk hsF hne
    have hemp : (get_conversation_history store cid none).isEmpty = false := by
      cases hcase : get_conversation_history store cid none with
      | nil => exact absurd hcase hne
      | cons a l => rfl
    refine ⟨?_, ?_, ?_, ?_⟩
    · simp only [generate_real_time_assist, hemp, Bool.false_eq_true, if_false]
      split
      · obtain ⟨e, he⟩ := hsF (get_conversation_history store cid none)
        simp [he, Except.toOption]
      · rfl
    · simp only [generate_real_time_assist, hemp, Bool.false_eq_true, if_false, hr]
    · simp only [generate_real_time_assist, hemp, Bool.false_eq_true, if_false, hk]
    · simp only [generate_real_time_assist, hemp, Bool.false_eq_true, if_false]
  · intro llm llmF store cid now iS iR iK hs hr hkF hne
    have hemp : (get_conversation_history store cid none).isEmpty = false := by
      cases hcase : get_conversation_history store cid none with
      | nil => exact absurd hcase hne
      | cons a l => rfl
    refine ⟨?_, ?_, ?_, ?_⟩
    · simp only [generate_real_time_assist, hemp, Bool.false_eq_true, if_false]
      split
      · cases hl : get_last_patient_message (get_conversation_history store cid none) with
        | none => rfl
        | some lp =>
          obtain ⟨e, he⟩ := hkF lp
          simp [he, Except.toOption, Except.map]
      · rfl
    · simp only [generate_real_time_assist, hemp, Bool.false_eq_true, if_false, hs]
    · simp only [generate_real_time_assist, hemp, Bool.false_eq_true, if_false, hr]
    · simp only [generate_real_time_assist, hemp, Bool.false_eq_true, if_false]

/-- Claim C5 witness: each failing capability (replies, summary, knowledge)
against the sample capability on a concrete three-message conversation. -/
theorem assist_failure_isolation_witness :
    (generate_real_time_assist failingRepliesLLM c5store
      "c5" "t9" true true true).smart_replies = none ∧
    (generate_real_time_assist failingSummaryLLM c5store
      "c5" "t9" true true true).summary = none ∧
    (generate_real_time_assist failingKnowledgeLLM c5store
      "c5" "t9" true true true).knowledge_snippets = none :=
  ⟨(assist_failure_isolation.1 sampleLLM failingRepliesLLM c5store
      "c5" "t9" true true true rfl rfl
      (fun _ _ => ⟨"upstream error", rfl⟩) (by decide)).1,
   (assist_failure_isolation.2.1 sampleLLM failingSummaryLLM c5store
      "c5" "t9" true true true rfl rfl
      (fun _ => ⟨"upstream error", rfl⟩) (by decide)).1,
   (assist_failure_isolation.2.2 sampleLLM failingKnowledgeLLM c5store
      "c5" "t9" true true true rfl rfl
      (fun _ => ⟨"upstream error", rfl⟩) (by decide)).1⟩

/-- Claim C1: the last patient message handed to the knowledge operation is
the raw stored text, not the redacted text: with an echoing capability the
response exposes the raw SSN text as the knowledge query, the knowledge
prompt interpolates the raw query verbatim, and that text is not safe
(redaction would have changed it). -/
theorem knowledge_query_is_raw :
    (generate_real_time_assist sampleLLM ssnStore "conv-1" "t1" true true true).knowledge_snippets =
      some [⟨rawSSN, (85 : ℚ) / 100, "gemini"⟩] ∧
    generate_knowledge_snippet Except.ok "gemini" rawSSN =
      .ok ⟨stripStr (knowledge_prompt rawSSN), (85 : ℚ) / 100, "gemini"⟩ ∧
    containsStr (knowledge_prompt rawSSN) "123-45-6789" = true ∧
    (redact rawSSN none).1 ≠ rawSSN ∧
    is_text_safe rawSSN = false := by
  refine ⟨by rfl, by rfl, by decide, by decide, by rfl⟩
